import Mathlib

/-!
Shallow embedding of the simulated shell from `3sim.py` (classes `SimFS` and
`ShellSim` plus the helper `wc_count`), and proofs of the specified properties.

Python data is modelled as follows: `str` becomes `String` (with the primitive
operations implemented over the underlying `List Char`), `Dict[str, V]` becomes
an association list `List (String × V)` whose operations agree with Python
dicts on all duplicate-free lists (Python dicts never hold duplicate keys),
`Optional[T]` becomes `Option T`, and a method on `SimFS`/`ShellSim` that
mutates `self` becomes a function returning the updated state.
-/

set_option maxRecDepth 8000

namespace Sim

/-! ### Dictionary operations (Python `dict` as association list) -/

/-- Dict lookup `d[k]` returning `Option` (first matching key). -/
def dget {α : Type} (m : List (String × α)) (k : String) : Option α :=
  (m.find? (fun e => e.1 = k)).map (fun e => e.2)

/-- Dict membership test `k in d`. -/
def dmem {α : Type} (m : List (String × α)) (k : String) : Bool :=
  (dget m k).isSome

/-- Dict assignment `d[k] = v`.  On duplicate-free lists this has exactly Python
dict semantics (replace the value if present, add the key otherwise); entry
order is irrelevant to the simulator because `ls` sorts all output. -/
def dinsert {α : Type} (m : List (String × α)) (k : String) (v : α) :
    List (String × α) :=
  m.filter (fun e => e.1 ≠ k) ++ [(k, v)]

/-- Dict deletion `del d[k]`. -/
def derase {α : Type} (m : List (String × α)) (k : String) : List (String × α) :=
  m.filter (fun e => e.1 ≠ k)

/-- In-place update `d[k].append(...)` style: apply `f` to the value at `k`. -/
def dmodify {α : Type} (m : List (String × α)) (k : String) (f : α → α) :
    List (String × α) :=
  m.map (fun e => if e.1 = k then (e.1, f e.2) else e)

/-- Dict key list `d.keys()`. -/
def dkeys {α : Type} (m : List (String × α)) : List String :=
  m.map (fun e => e.1)

/-! ### String helpers (Python `str` primitives over `List Char`) -/

/-- Python whitespace for `str.strip()` / `str.split()`:
space, tab, newline, carriage return, vertical tab, form feed. -/
def isPyWs (c : Char) : Bool :=
  c = ' ' ∨ c = '\t' ∨ c = '\n' ∨ c = '\r' ∨ c = Char.ofNat 11 ∨ c = Char.ofNat 12

/-- Python `s.strip()`. -/
def pyStrip (s : String) : String :=
  String.mk (((s.data.dropWhile isPyWs).reverse.dropWhile isPyWs).reverse)

/-- Python `s.rstrip("/")`. -/
def rstripSlash (s : String) : String :=
  String.mk ((s.data.reverse.dropWhile (fun c => c = '/')).reverse)

/-- Python `s.strip("/")`. -/
def stripSlash (s : String) : String :=
  String.mk (((s.data.dropWhile (fun c => c = '/')).reverse.dropWhile
    (fun c => c = '/')).reverse)

/-- Python `s[n:]` (drop the first `n` characters). -/
def strDrop (s : String) (n : Nat) : String :=
  String.mk (s.data.drop n)

/-- Python `s.startswith(pre)`. -/
def strStartsWith (s pre : String) : Bool :=
  pre.data.isPrefixOf s.data

/-- Python `s.endswith(suf)`. -/
def strEndsWith (s suf : String) : Bool :=
  suf.data.isSuffixOf s.data

/-- Contiguous-sublist test at the character level. -/
def subSearch (sub : List Char) : List Char → Bool
  | [] => sub.isPrefixOf []
  | c :: cs => sub.isPrefixOf (c :: cs) || subSearch sub cs

/-- Python substring test `sub in s`. -/
def strContains (s sub : String) : Bool :=
  subSearch sub.data s.data

/-- Python `s.split("/")` at the character level: split on every `'/'`. -/
def mySplit : List Char → List (List Char)
  | [] => [[]]
  | c :: cs =>
    if c = '/' then [] :: mySplit cs
    else
      match mySplit cs with
      | [] => [[c]]
      | t :: ts => (c :: t) :: ts

/-- Python `"/".join(pieces)` at the character level. -/
def myJoin : List (List Char) → List Char
  | [] => []
  | [p] => p
  | p :: q :: r => p ++ '/' :: myJoin (q :: r)

/-- Python `s.split("/")`. -/
def splitSlash (s : String) : List String :=
  (mySplit s.data).map String.mk

/-- Python `"/".join(parts)`. -/
def joinSlash (l : List String) : String :=
  String.mk (myJoin (l.map String.data))

/-- Python `s.split(sep, 1)` helper: split at the first occurrence of `sep`,
returning the pieces before and after it (`none` if `sep` does not occur). -/
def split1Aux (sep : List Char) : List Char → Option (List Char × List Char)
  | [] => none
  | c :: cs =>
    if sep.isPrefixOf (c :: cs) then some ([], (c :: cs).drop sep.length)
    else (split1Aux sep cs).map (fun pr => (c :: pr.1, pr.2))

/-- Python `s.split(sep, 1)` (callers guarantee `sep in s`). -/
def split1 (s sep : String) : String × String :=
  match split1Aux sep.data s.data with
  | some pr => (String.mk pr.1, String.mk pr.2)
  | none => (s, "")

/-! ### `SimFS._norm`: path resolution -/

/-- One step of the segment loop in `SimFS._norm`: skip `""` and `"."`,
pop on `".."` (silently a no-op at the root), push any other segment. -/
def normStep (acc : List String) (seg : String) : List String :=
  if seg = "" ∨ seg = "." then acc
  else if seg = ".." then acc.dropLast
  else acc ++ [seg]

/-- The first half of `SimFS._norm`: make the path absolute (the value the
local variable `path` holds when the segment loop starts). -/
def normInput (cwd path0 : String) : String :=
  if strStartsWith path0 "/" then path0
  else if path0 = "." then cwd
  else if strStartsWith path0 "./" then rstripSlash cwd ++ "/" ++ strDrop path0 2
  else rstripSlash cwd ++ "/" ++ path0

/-- Embeds `SimFS._norm(path)` with the current working directory `self.cwd` made an
explicit first argument: resolve `path` relative to `cwd` and normalize. -/
def _norm (cwd path0 : String) : String :=
  let parts := (splitSlash (normInput cwd path0)).foldl normStep []
  if parts = [] then "/" else "/" ++ joinSlash parts

/-! ### `SimFS`: the in-memory filesystem -/

/-- State of `SimFS`: directory map (`self.dirs`, canonical path ↦ child names),
file map (`self.files`, canonical path ↦ content), current directory. -/
structure FS where
  dirs : List (String × List String)
  files : List (String × String)
  cwd : String
deriving DecidableEq

/-- Result of an operation: the `(ok, message-or-output)` pair returned by the
Python method, plus the (possibly updated) `SimFS` state. -/
structure Res where
  ok : Bool
  out : String
  fs : FS
deriving DecidableEq

/-- The seed tree built by `SimFS.__init__`. -/
def initFS : FS :=
  { dirs := [("/", ["home", "etc", "var", "tmp"]),
             ("/home", ["cannon"]),
             ("/home/cannon", ["notes", "labs"]),
             ("/home/cannon/notes", []),
             ("/home/cannon/labs", []),
             ("/etc", []),
             ("/var", ["log"]),
             ("/var/log", []),
             ("/tmp", [])],
    files := [("/home/cannon/notes/readme.txt",
               "Welcome to LPIC Essentials Topic 1.3\n")],
    cwd := "/home/cannon" }

/-- The parent-path expression repeated in `mkdir`/`touch`/`cp`/`mv`/
`write_file`: `"/" + "/".join(p.strip("/").split("/")[:-1])` when
`"/" in p.strip("/")`, else `"/"`. -/
def parentOf (p : String) : String :=
  let st := stripSlash p
  if strContains st "/" then "/" ++ joinSlash (splitSlash st).dropLast else "/"

/-- Insertion of a string into an ascending list (Python `sorted`, ascending
lexicographic order on code points, stable). -/
def insSorted (s : String) : List String → List String
  | [] => [s]
  | t :: ts => if s ≤ t then s :: t :: ts else t :: insSorted s ts

/-- Python `sorted` on a list of strings. -/
def pySorted (l : List String) : List String :=
  l.foldr insSorted []

/-- Embeds `SimFS.pwd`. -/
def pwd (fs : FS) : String := fs.cwd

/-- Embeds `SimFS.ls` (read-only, so it returns just the `(ok, output)` pair). -/
def lsOp (fs : FS) (path : Option String) : Bool × String :=
  let p := match path with
    | some s => if s = "" then fs.cwd else _norm fs.cwd s
    | none => fs.cwd
  match dget fs.dirs p with
  | some kids =>
    let pfx := rstripSlash p ++ "/"
    let localFiles := pySorted ((dkeys fs.files).filterMap (fun fp =>
      if strStartsWith fp pfx ∧ strContains (strDrop fp pfx.data.length) "/" = false
      then some (strDrop fp pfx.data.length) else none))
    let items := pySorted (kids ++ localFiles)
    (true, String.intercalate "  " items)
  | none =>
    let pathStr := match path with | some s => s | none => "None"
    (false, "ls: cannot access \x27" ++ pathStr ++ "\x27: No such directory")

/-- Embeds `SimFS.cd`. -/
def cd (fs : FS) (path : String) : Res :=
  let p := _norm fs.cwd path
  if dmem fs.dirs p then ⟨true, "", { fs with cwd := p }⟩
  else ⟨false, "cd: no such file or directory: " ++ path, fs⟩

/-- Embeds `SimFS.mkdir`. -/
def mkdir (fs : FS) (name : String) : Res :=
  let p := _norm fs.cwd name
  if dmem fs.dirs p ∨ dmem fs.files p then
    ⟨false, "mkdir: cannot create directory \x27" ++ name ++ "\x27: File exists", fs⟩
  else
    let parent := parentOf p
    if dmem fs.dirs parent = false then
      ⟨false, "mkdir: cannot create directory \x27" ++ name ++
        "\x27: No such file or directory", fs⟩
    else
      let base := (splitSlash p).getLastD ""
      ⟨true, "",
        { fs with dirs := dinsert (dmodify fs.dirs parent (fun kids => kids ++ [base])) p [] }⟩

/-- Embeds `SimFS.touch`. -/
def touch (fs : FS) (name : String) : Res :=
  let p := _norm fs.cwd name
  let parent := parentOf p
  if dmem fs.dirs parent = false then
    ⟨false, "touch: cannot touch \x27" ++ name ++ "\x27: No such directory", fs⟩
  else if dmem fs.files p = false then
    ⟨true, "", { fs with files := dinsert fs.files p "" }⟩
  else ⟨true, "", fs⟩

/-- Embeds `SimFS.cat` (read-only). -/
def cat (fs : FS) (name : String) : Bool × String :=
  let p := _norm fs.cwd name
  match dget fs.files p with
  | some content => (true, content)
  | none => (false, "cat: " ++ name ++ ": No such file")

/-- Embeds `SimFS.rm`. -/
def rm (fs : FS) (name : String) : Res :=
  let p := _norm fs.cwd name
  if dmem fs.files p then ⟨true, "", { fs with files := derase fs.files p }⟩
  else if dmem fs.dirs p then
    ⟨false, "rm: cannot remove \x27" ++ name ++ "\x27: Is a directory", fs⟩
  else ⟨false, "rm: cannot remove \x27" ++ name ++ "\x27: No such file", fs⟩

/-- Embeds `SimFS.cp`. -/
def cp (fs : FS) (src dst : String) : Res :=
  let s := _norm fs.cwd src
  let d := _norm fs.cwd dst
  match dget fs.files s with
  | none => ⟨false, "cp: cannot stat \x27" ++ src ++ "\x27: No such file", fs⟩
  | some content =>
    if dmem fs.dirs (parentOf d) = false then
      ⟨false, "cp: cannot create regular file \x27" ++ dst ++ "\x27: No such directory", fs⟩
    else ⟨true, "", { fs with files := dinsert fs.files d content }⟩

/-- Embeds `SimFS.mv`: `files[d] = files[s]` then `del files[s]`. -/
def mv (fs : FS) (src dst : String) : Res :=
  let s := _norm fs.cwd src
  let d := _norm fs.cwd dst
  match dget fs.files s with
  | none => ⟨false, "mv: cannot stat \x27" ++ src ++ "\x27: No such file", fs⟩
  | some content =>
    if dmem fs.dirs (parentOf d) = false then
      ⟨false, "mv: cannot move to \x27" ++ dst ++ "\x27: No such directory", fs⟩
    else ⟨true, "", { fs with files := derase (dinsert fs.files d content) s }⟩

/-- Embeds `SimFS.write_file`. -/
def write_file (fs : FS) (path content : String) (append : Bool) : Res :=
  let p := _norm fs.cwd path
  if dmem fs.dirs (parentOf p) = false then
    ⟨false, "redirect: cannot write \x27" ++ path ++ "\x27: No such directory", fs⟩
  else if append then
    ⟨true, "", { fs with files := dinsert fs.files p ((dget fs.files p).getD "" ++ content) }⟩
  else ⟨true, "", { fs with files := dinsert fs.files p content }⟩

/-! ### `shlex.split` (Python standard library, POSIX mode) -/

/-- The single-quote character (code point 39). -/
def sqChar : Char := Char.ofNat 39

/-- The double-quote character. -/
def dqChar : Char := '"'

/-- The backslash character. -/
def bsChar : Char := '\\'

/-- Embeds `shlex.whitespace` (space, tab, carriage return, newline). -/
def isShlexWs (c : Char) : Bool :=
  c = ' ' ∨ c = '\t' ∨ c = '\r' ∨ c = '\n'

/-- Lexer mode: outside quotes, inside single quotes, inside double quotes. -/
inductive SMode
  | plain
  | insq
  | indq

/-- Flush the pending token (`cur` holds its characters reversed) and return
the accumulated tokens in order. -/
def finToks (toks : List String) (cur : Option (List Char)) : List String :=
  (match cur with
   | some t => String.mk t.reverse :: toks
   | none => toks).reverse

/-- State machine of Python `shlex.split` (POSIX rules): whitespace separates
tokens; `'...'` is literal; `"..."` allows `\"` and `\\` escapes (any other
backslash is kept literally); a bare backslash escapes the next character;
an unterminated quote or a trailing escape raises `ValueError` (`none`). -/
def shlexAux : List Char → SMode → List String → Option (List Char) → Option (List String)
  | [], .plain, toks, cur => some (finToks toks cur)
  | [], .insq, _, _ => none
  | [], .indq, _, _ => none
  | c :: cs, .plain, toks, cur =>
    if c = sqChar then shlexAux cs .insq toks (some (cur.getD []))
    else if c = dqChar then shlexAux cs .indq toks (some (cur.getD []))
    else if c = bsChar then
      match cs with
      | [] => none
      | x :: rest => shlexAux rest .plain toks (some (x :: cur.getD []))
    else if isShlexWs c then
      match cur with
      | some t => shlexAux cs .plain (String.mk t.reverse :: toks) none
      | none => shlexAux cs .plain toks none
    else shlexAux cs .plain toks (some (c :: cur.getD []))
  | c :: cs, .insq, toks, cur =>
    if c = sqChar then shlexAux cs .plain toks cur
    else shlexAux cs .insq toks (some (c :: cur.getD []))
  | c :: cs, .indq, toks, cur =>
    if c = dqChar then shlexAux cs .plain toks cur
    else if c = bsChar then
      match cs with
      | [] => none
      | x :: rest =>
        if x = dqChar ∨ x = bsChar then shlexAux rest .indq toks (some (x :: cur.getD []))
        else shlexAux rest .indq toks (some (x :: bsChar :: cur.getD []))
    else shlexAux cs .indq toks (some (c :: cur.getD []))

/-- Python `shlex.split(line)`; `none` models the `ValueError` caught by
`ShellSim._run_simple`. -/
def shlexSplit (s : String) : Option (List String) :=
  shlexAux s.data .plain [] none

/-! ### `wc_count` and the command engine `ShellSim` -/

/-- Word counter for Python `len(text.split())`: number of maximal runs of
non-whitespace characters (`inW` records whether a run is open). -/
def wcWords : List Char → Bool → Nat
  | [], _ => 0
  | c :: cs, inW =>
    if isPyWs c then wcWords cs false
    else (if inW then 0 else 1) + wcWords cs true

/-- Line-boundary characters of Python `str.splitlines`. -/
def isLineBreak (c : Char) : Bool :=
  c = '\n' ∨ c = '\r' ∨ c = Char.ofNat 11 ∨ c = Char.ofNat 12 ∨
  c = Char.ofNat 28 ∨ c = Char.ofNat 29 ∨ c = Char.ofNat 30 ∨
  c = Char.ofNat 133 ∨ c = Char.ofNat 8232 ∨ c = Char.ofNat 8233

/-- Line counter for Python `len(text.splitlines())` (`\r\n` is one break;
`inL` records whether a line is open). -/
def wcLines : List Char → Bool → Nat
  | [], inL => if inL then 1 else 0
  | '\r' :: '\n' :: cs, _ => 1 + wcLines cs false
  | c :: cs, _ =>
    if isLineBreak c then 1 + wcLines cs false
    else wcLines cs true

/-- Embeds `wc_count(text, mode)`: `-w` counts words, `-c` counts UTF-8 bytes,
anything else counts lines. -/
def wc_count (text mode : String) : String :=
  if mode = "-w" then toString (wcWords text.data false)
  else if mode = "-c" then toString text.utf8ByteSize
  else toString (wcLines text.data false)

/-- Redirection stripping at the top of `ShellSim._run_simple`: if `">>"`
occurs, split once on it (append mode); else if `">"` occurs, split once on
it (overwrite mode); both pieces are stripped.  Returns
(command part, redirect target or `none`, append flag). -/
def extractRedirect (line : String) : String × Option String × Bool :=
  if strContains line ">>" then
    let pr := split1 line ">>"
    (pyStrip pr.1, some (pyStrip pr.2), true)
  else if strContains line ">" then
    let pr := split1 line ">"
    (pyStrip pr.1, some (pyStrip pr.2), false)
  else (line, none, false)

/-- Embeds `ShellSim._finalize`.  Note Python tests `if redirect_path:` — an empty
target string behaves like no redirection. -/
def finalize (fs : FS) (ok_ : Bool) (out : String) (redirect : Option String)
    (append : Bool) : Res :=
  if ok_ = false then ⟨false, out, fs⟩
  else if redirect.getD "" = "" then ⟨true, out, fs⟩
  else
    let wr := write_file fs (redirect.getD "") out append
    if wr.ok = false then
      ⟨false, wr.out ++ (if strEndsWith wr.out "\n" then "" else "\n"), wr.fs⟩
    else ⟨true, "", wr.fs⟩

/-- The `return ok_, out_ + ("\n" if out_ else "")` pattern shared by the
`cd`/`mkdir`/`touch`/`rm`/`cp`/`mv` branches of `_run_simple`. -/
def addNl (r : Res) : Res :=
  ⟨r.ok, r.out ++ (if r.out = "" then "" else "\n"), r.fs⟩

/-- Embeds `ShellSim._run_simple(line, piped_in)`. -/
def runSimple (fs : FS) (line0 : String) (piped : Option String) : Res :=
  let er := extractRedirect line0
  let line := er.1
  let redirect := er.2.1
  let append := er.2.2
  match shlexSplit line with
  | none => ⟨false, "Parse error: unmatched quotes", fs⟩
  | some [] => ⟨true, "", fs⟩
  | some (cmd :: args) =>
    if cmd = "pwd" then finalize fs true (pwd fs ++ "\n") redirect append
    else if cmd = "ls" then
      let r := lsOp fs args.head?
      finalize fs r.1 (r.2 ++ (if r.2 ≠ "" ∧ r.1 = true then "\n" else "")) redirect append
    else if cmd = "cd" then
      match args with
      | [] => ⟨false, "cd: missing operand\n", fs⟩
      | a :: _ => addNl (cd fs a)
    else if cmd = "mkdir" then
      match args with
      | [] => ⟨false, "mkdir: missing operand\n", fs⟩
      | a :: _ => addNl (mkdir fs a)
    else if cmd = "touch" then
      match args with
      | [] => ⟨false, "touch: missing file operand\n", fs⟩
      | a :: _ => addNl (touch fs a)
    else if cmd = "cat" then
      match args with
      | [] => ⟨false, "cat: missing file operand\n", fs⟩
      | a :: _ =>
        let r := cat fs a
        finalize fs r.1
          (r.2 ++ (if strEndsWith r.2 "\n" ∨ r.1 = false then "" else "\n"))
          redirect append
    else if cmd = "rm" then
      match args with
      | [] => ⟨false, "rm: missing operand\n", fs⟩
      | a :: _ => addNl (rm fs a)
    else if cmd = "cp" then
      match args with
      | [a, b] => addNl (cp fs a b)
      | _ => ⟨false, "cp: usage: cp SRC DST\n", fs⟩
    else if cmd = "mv" then
      match args with
      | [a, b] => addNl (mv fs a b)
      | _ => ⟨false, "mv: usage: mv SRC DST\n", fs⟩
    else if cmd = "echo" then
      finalize fs true (String.intercalate " " args ++ "\n") redirect append
    else if cmd = "wc" then
      let mode := match args with
        | a :: _ => if strStartsWith a "-" then a else ""
        | [] => ""
      match piped with
      | some t => finalize fs true (wc_count t mode ++ "\n") redirect append
      | none =>
        match args with
        | _ :: b :: _ =>
          let r := cat fs b
          if r.1 = false then
            ⟨false, r.2 ++ (if strEndsWith r.2 "\n" then "" else "\n"), fs⟩
          else finalize fs true (wc_count r.2 mode ++ "\n") redirect append
        | _ => ⟨false, "wc: expected piped input or file\n", fs⟩
    else ⟨false, cmd ++ ": command not found\n", fs⟩

/-- Embeds `ShellSim.run(line)`: strip the line, handle a single pipe, otherwise run
one simple command. -/
def run (fs : FS) (line0 : String) : Res :=
  let line := pyStrip line0
  if line = "" then ⟨true, "", fs⟩
  else if strContains line "|" then
    let pr := split1 line "|"
    let left := pyStrip pr.1
    let right := pyStrip pr.2
    let r1 := runSimple fs left none
    if r1.ok = false then ⟨false, r1.out, r1.fs⟩
    else runSimple r1.fs right (some r1.out)
  else runSimple fs line none

/-! ### Lemmas about the dictionary operations -/

theorem dget_nil {α : Type} (k : String) : dget ([] : List (String × α)) k = none := rfl

theorem dget_cons {α : Type} (a : String) (v : α) (m : List (String × α)) (k : String) :
    dget ((a, v) :: m) k = if a = k then some v else dget m k := by
  by_cases h : a = k <;> simp [dget, List.find?_cons, h]

theorem dget_dinsert_self {α : Type} (m : List (String × α)) (k : String) (v : α) :
    dget (dinsert m k v) k = some v := by
  induction m with
  | nil => simp [dinsert, dget, List.find?]
  | cons e m ih =>
    obtain ⟨a, w⟩ := e
    by_cases h : a = k
    · simpa [dinsert, h] using ih
    · simpa [dinsert, dget_cons, h] using ih

theorem dget_dinsert_ne {α : Type} (m : List (String × α)) (k k' : String) (v : α)
    (h : k' ≠ k) : dget (dinsert m k v) k' = dget m k' := by
  induction m with
  | nil => simp [dinsert, dget, List.find?, Ne.symm h]
  | cons e m ih =>
    obtain ⟨a, w⟩ := e
    by_cases ha : a = k
    · subst ha
      simpa [dinsert, dget_cons, Ne.symm h] using ih
    · by_cases ha' : a = k'
      · subst ha'
        simp [dinsert, List.filter_cons, h, dget_cons]
      · simpa [dinsert, ha, dget_cons, ha'] using ih

theorem dget_derase_self {α : Type} (m : List (String × α)) (k : String) :
    dget (derase m k) k = none := by
  induction m with
  | nil => rfl
  | cons e m ih =>
    obtain ⟨a, w⟩ := e
    by_cases h : a = k
    · simpa [derase, h] using ih
    · simpa [derase, h, dget_cons] using ih

theorem dget_derase_ne {α : Type} (m : List (String × α)) (k k' : String)
    (h : k' ≠ k) : dget (derase m k) k' = dget m k' := by
  induction m with
  | nil => rfl
  | cons e m ih =>
    obtain ⟨a, w⟩ := e
    by_cases ha : a = k
    · subst ha
      simpa [derase, dget_cons, Ne.symm h] using ih
    · by_cases ha' : a = k'
      · subst ha'
        simp [derase, List.filter_cons, h, dget_cons]
      · simpa [derase, ha, dget_cons, ha'] using ih

theorem dget_dmodify_self {α : Type} (m : List (String × α)) (k : String) (f : α → α) :
    dget (dmodify m k f) k = (dget m k).map f := by
  induction m with
  | nil => rfl
  | cons e m ih =>
    obtain ⟨a, w⟩ := e
    by_cases h : a = k
    · simp [dmodify, h, dget_cons]
    · simpa [dmodify, h, dget_cons] using ih

theorem dget_dmodify_ne {α : Type} (m : List (String × α)) (k k' : String) (f : α → α)
    (h : k' ≠ k) : dget (dmodify m k f) k' = dget m k' := by
  induction m with
  | nil => rfl
  | cons e m ih =>
    obtain ⟨a, w⟩ := e
    by_cases ha : a = k
    · subst ha
      simpa [dmodify, dget_cons, Ne.symm h] using ih
    · by_cases ha' : a = k'
      · subst ha'
        simp [dmodify, h, dget_cons]
      · simpa [dmodify, ha, dget_cons, ha'] using ih

/-! ### Failure leaves the filesystem unchanged, operation by operation -/

theorem cd_fail (fs : FS) (p : String) :
    (cd fs p).ok = false → (cd fs p).fs = fs := by
  simp only [cd]; split <;> simp

theorem mkdir_fail (fs : FS) (p : String) :
    (mkdir fs p).ok = false → (mkdir fs p).fs = fs := by
  simp only [mkdir]; split
  · intro _; rfl
  · split <;> simp

theorem touch_fail (fs : FS) (p : String) :
    (touch fs p).ok = false → (touch fs p).fs = fs := by
  simp only [touch]; split
  · intro _; rfl
  · split <;> simp

theorem rm_fail (fs : FS) (p : String) :
    (rm fs p).ok = false → (rm fs p).fs = fs := by
  simp only [rm]; split
  · simp
  · split <;> simp

theorem cp_fail (fs : FS) (src dst : String) :
    (cp fs src dst).ok = false → (cp fs src dst).fs = fs := by
  simp only [cp]; split
  · intro _; rfl
  · split <;> simp

theorem mv_fail (fs : FS) (src dst : String) :
    (mv fs src dst).ok = false → (mv fs src dst).fs = fs := by
  simp only [mv]; split
  · intro _; rfl
  · split <;> simp

theorem write_file_fail (fs : FS) (path content : String) (append : Bool) :
    (write_file fs path content append).ok = false →
    (write_file fs path content append).fs = fs := by
  simp only [write_file]; split
  · intro _; rfl
  · split <;> simp

theorem finalize_fail (fs : FS) (ok_ : Bool) (out : String) (rp : Option String)
    (ap : Bool) : (finalize fs ok_ out rp ap).ok = false →
    (finalize fs ok_ out rp ap).fs = fs := by
  simp only [finalize]
  split
  · intro _; rfl
  · split
    · simp
    · split
      · intro _
        exact write_file_fail fs (rp.getD "") out ap (by assumption)
      · simp

/-- A failing `_run_simple` call never changes the filesystem state. -/
theorem runSimple_fail (fs : FS) (line : String) (piped : Option String) :
    (runSimple fs line piped).ok = false → (runSimple fs line piped).fs = fs := by
  simp only [runSimple]
  generalize (extractRedirect line).2.1 = rp
  generalize (extractRedirect line).2.2 = ap
  generalize shlexSplit (extractRedirect line).1 = argv
  split
  · exact fun _ => rfl
  · exact fun _ => rfl
  · rename_i cmd args
    by_cases h1 : cmd = "pwd"
    · rw [if_pos h1]; exact finalize_fail _ _ _ _ _
    rw [if_neg h1]
    by_cases h2 : cmd = "ls"
    · rw [if_pos h2]; exact finalize_fail _ _ _ _ _
    rw [if_neg h2]
    by_cases h3 : cmd = "cd"
    · rw [if_pos h3]
      cases args with
      | nil => exact fun _ => rfl
      | cons a t => exact cd_fail fs a
    rw [if_neg h3]
    by_cases h4 : cmd = "mkdir"
    · rw [if_pos h4]
      cases args with
      | nil => exact fun _ => rfl
      | cons a t => exact mkdir_fail fs a
    rw [if_neg h4]
    by_cases h5 : cmd = "touch"
    · rw [if_pos h5]
      cases args with
      | nil => exact fun _ => rfl
      | cons a t => exact touch_fail fs a
    rw [if_neg h5]
    by_cases h6 : cmd = "cat"
    · rw [if_pos h6]
      cases args with
      | nil => exact fun _ => rfl
      | cons a t => exact finalize_fail _ _ _ _ _
    rw [if_neg h6]
    by_cases h7 : cmd = "rm"
    · rw [if_pos h7]
      cases args with
      | nil => exact fun _ => rfl
      | cons a t => exact rm_fail fs a
    rw [if_neg h7]
    by_cases h8 : cmd = "cp"
    · rw [if_pos h8]
      match args with
      | [] => exact fun _ => rfl
      | [a] => exact fun _ => rfl
      | [a, b] => exact cp_fail fs a b
      | a :: b :: c :: t => exact fun _ => rfl
    rw [if_neg h8]
    by_cases h9 : cmd = "mv"
    · rw [if_pos h9]
      match args with
      | [] => exact fun _ => rfl
      | [a] => exact fun _ => rfl
      | [a, b] => exact mv_fail fs a b
      | a :: b :: c :: t => exact fun _ => rfl
    rw [if_neg h9]
    by_cases h10 : cmd = "echo"
    · rw [if_pos h10]; exact finalize_fail _ _ _ _ _
    rw [if_neg h10]
    by_cases h11 : cmd = "wc"
    · rw [if_pos h11]
      split
      · exact finalize_fail _ _ _ _ _
      · split
        · split
          · exact fun _ => rfl
          · exact finalize_fail _ _ _ _ _
        · exact fun _ => rfl
    rw [if_neg h11]
    exact fun _ => rfl

/-! ### Lemmas about path normalization -/

theorem strEta (s : String) : String.mk s.data = s := by
  cases s; rfl

theorem strAppend_data (a b : String) : (a ++ b).data = a.data ++ b.data := by
  cases a; cases b; rfl

theorem mySplit_ne_nil (l : List Char) : mySplit l ≠ [] := by
  cases l with
  | nil => simp [mySplit]
  | cons c cs =>
    simp only [mySplit]
    split
    · simp
    · split <;> simp_all

theorem mem_mySplit_no_slash (l : List Char) :
    ∀ p ∈ mySplit l, '/' ∉ p := by
  induction l with
  | nil =>
    intro p hp
    simp only [mySplit, List.mem_singleton] at hp
    simp [hp]
  | cons c cs ih =>
    intro p hp
    simp only [mySplit] at hp
    by_cases hc : c = '/'
    · rw [if_pos hc] at hp
      rcases List.mem_cons.mp hp with hp | hp
      · simp [hp]
      · exact ih p hp
    · rw [if_neg hc] at hp
      rcases hsp : mySplit cs with _ | ⟨t, ts⟩
      · exact absurd hsp (mySplit_ne_nil cs)
      · rw [hsp] at hp
        rcases List.mem_cons.mp hp with hp | hp
        · subst hp
          intro hmem
          rcases List.mem_cons.mp hmem with hmem | hmem
          · exact hc hmem.symm
          · exact ih t (by rw [hsp]; exact List.mem_cons_self t ts) hmem
        · exact ih p (by rw [hsp]; exact List.mem_cons_of_mem t hp)

theorem mySplit_no_slash (p : List Char) (h : '/' ∉ p) : mySplit p = [p] := by
  induction p with
  | nil => rfl
  | cons c cs ih =>
    have hc : ¬ c = '/' := fun hh => h (by simp [hh])
    have hcs : '/' ∉ cs := fun hh => h (List.mem_cons_of_mem c hh)
    simp only [mySplit, if_neg hc, ih hcs]

theorem mySplit_append (p r : List Char) (h : '/' ∉ p) :
    mySplit (p ++ '/' :: r) = p :: mySplit r := by
  induction p with
  | nil => simp [mySplit]
  | cons c cs ih =>
    have hc : ¬ c = '/' := fun hh => h (by simp [hh])
    have hcs : '/' ∉ cs := fun hh => h (List.mem_cons_of_mem c hh)
    simp only [List.cons_append, mySplit, if_neg hc, List.append_eq]
    rw [ih hcs]

theorem mySplit_myJoin (ps : List (List Char)) (h0 : ps ≠ [])
    (h : ∀ p ∈ ps, '/' ∉ p) : mySplit (myJoin ps) = ps := by
  induction ps with
  | nil => exact absurd rfl h0
  | cons p qs ih =>
    cases qs with
    | nil => exact mySplit_no_slash p (h p (List.mem_cons_self p []))
    | cons q rs =>
      have hp : '/' ∉ p := h p (List.mem_cons_self p (q :: rs))
      have hrest : ∀ x ∈ q :: rs, '/' ∉ x := fun x hx => h x (List.mem_cons_of_mem p hx)
      simp only [myJoin, mySplit_append p _ hp, ih (by simp) hrest]

/-- A segment that `_norm` can output: not empty, not `.`, not `..`,
containing no slash. -/
def goodSeg (s : String) : Prop :=
  s ≠ "" ∧ s ≠ "." ∧ s ≠ ".." ∧ '/' ∉ s.data

theorem normStep_good (acc : List String) (seg : String)
    (hacc : ∀ x ∈ acc, goodSeg x) (hseg : '/' ∉ seg.data) :
    ∀ x ∈ normStep acc seg, goodSeg x := by
  intro x hx
  simp only [normStep] at hx
  by_cases h1 : seg = "" ∨ seg = "."
  · rw [if_pos h1] at hx
    exact hacc x hx
  · rw [if_neg h1] at hx
    by_cases h2 : seg = ".."
    · rw [if_pos h2] at hx
      exact hacc x (List.dropLast_subset acc hx)
    · rw [if_neg h2] at hx
      rcases List.mem_append.mp hx with hx | hx
      · exact hacc x hx
      · have hxx : x = seg := by simpa using hx
        subst hxx
        push_neg at h1
        exact ⟨h1.1, h1.2, h2, hseg⟩

theorem foldl_normStep_good (segs : List String) :
    ∀ acc, (∀ x ∈ acc, goodSeg x) → (∀ s ∈ segs, '/' ∉ s.data) →
    ∀ x ∈ segs.foldl normStep acc, goodSeg x := by
  induction segs with
  | nil => intro acc hacc _; exact hacc
  | cons s rest ih =>
    intro acc hacc hsegs
    simp only [List.foldl_cons]
    exact ih (normStep acc s)
      (normStep_good acc s hacc (hsegs s (List.mem_cons_self s rest)))
      (fun x hx => hsegs x (List.mem_cons_of_mem s hx))

theorem foldl_normStep_of_good (segs : List String) :
    ∀ acc, (∀ s ∈ segs, goodSeg s) → segs.foldl normStep acc = acc ++ segs := by
  induction segs with
  | nil => intro acc _; simp
  | cons s rest ih =>
    intro acc h
    have hs := h s (List.mem_cons_self s rest)
    have hstep : normStep acc s = acc ++ [s] := by
      simp only [normStep]
      rw [if_neg (by simp [hs.1, hs.2.1]), if_neg hs.2.2.1]
    rw [List.foldl_cons, hstep,
      ih (acc ++ [s]) (fun x hx => h x (List.mem_cons_of_mem s hx))]
    simp

theorem splitSlash_mem_no_slash (s : String) :
    ∀ p ∈ splitSlash s, '/' ∉ p.data := by
  intro p hp
  simp only [splitSlash, List.mem_map] at hp
  obtain ⟨q, hq, rfl⟩ := hp
  exact mem_mySplit_no_slash s.data q hq

theorem mySplit_cons_slash (l : List Char) : mySplit ('/' :: l) = [] :: mySplit l := by
  simp [mySplit]

theorem splitSlash_join (parts : List String) (h0 : parts ≠ [])
    (h : ∀ p ∈ parts, '/' ∉ p.data) :
    splitSlash ("/" ++ joinSlash parts) = "" :: parts := by
  have hdata : ("/" ++ joinSlash parts).data = '/' :: myJoin (parts.map String.data) := by
    rw [strAppend_data]; rfl
  have hmap : ∀ q ∈ parts.map String.data, '/' ∉ q := by
    intro q hq
    simp only [List.mem_map] at hq
    obtain ⟨x, hx, rfl⟩ := hq
    exact h x hx
  have hmm : parts.map (String.mk ∘ String.data) = parts := by
    have hid : String.mk ∘ String.data = (id : String → String) :=
      funext (fun x => strEta x)
    rw [hid, List.map_id]
  rw [splitSlash, hdata, mySplit_cons_slash,
    mySplit_myJoin (parts.map String.data) (by simpa using h0) hmap,
    List.map_cons, List.map_map, hmm]

theorem strStartsWith_slash_append (x : String) :
    strStartsWith ("/" ++ x) "/" = true := by
  have hdata : ("/" ++ x).data = '/' :: x.data := by
    rw [strAppend_data]; rfl
  simp [strStartsWith, hdata, List.isPrefixOf]

/-- Claim C6: for every current directory `cwd`, every other directory
`a` and every path string `p`, normalization is idempotent:
`_norm a (_norm cwd p) = _norm cwd p`. -/
theorem c6_norm_idempotent (a cwd p : String) :
    _norm a (_norm cwd p) = _norm cwd p := by
  have hgood : ∀ x ∈ (splitSlash (normInput cwd p)).foldl normStep [], goodSeg x :=
    foldl_normStep_good (splitSlash (normInput cwd p)) [] (by simp)
      (splitSlash_mem_no_slash (normInput cwd p))
  by_cases h0 : (splitSlash (normInput cwd p)).foldl normStep [] = []
  · have hq : _norm cwd p = "/" := by
      simp only [_norm, h0, if_pos]
    rw [hq]
    rfl
  · set P := (splitSlash (normInput cwd p)).foldl normStep [] with hP
    have hq : _norm cwd p = "/" ++ joinSlash P := by
      simp only [_norm]
      rw [← hP, if_neg h0]
    rw [hq]
    have hni : normInput a ("/" ++ joinSlash P) = "/" ++ joinSlash P := by
      rw [normInput, if_pos (strStartsWith_slash_append (joinSlash P))]
    have hsplit : splitSlash ("/" ++ joinSlash P) = "" :: P :=
      splitSlash_join P h0 (fun q hq' => (hgood q hq').2.2.2)
    have hfold : List.foldl normStep [] ("" :: P) = P := by
      rw [List.foldl_cons]
      have hh : normStep [] "" = [] := rfl
      rw [hh, foldl_normStep_of_good P [] hgood]
      simp
    simp only [_norm, hni, hsplit, hfold]
    rw [if_neg h0]

/-- Claim C7: path normalization never errors on a `..` with nothing left to
pop: `_norm "/" "../../.."` is `"/"`, and more generally the segment loop
started at the root discards every `..` (and `.`/empty) segment, ending with
no segments. -/
theorem c7_dotdot_above_root :
    _norm "/" "../../.." = "/" ∧
    ∀ l : List String, (∀ s ∈ l, s = ".." ∨ s = "." ∨ s = "") →
      l.foldl normStep [] = [] := by
  refine ⟨rfl, ?_⟩
  intro l
  induction l with
  | nil => intro _; rfl
  | cons s rest ih =>
    intro hl
    have hs := hl s (List.mem_cons_self s rest)
    have hstep : normStep [] s = [] := by
      rcases hs with hs | hs | hs <;> (subst hs; rfl)
    rw [List.foldl_cons, hstep]
    exact ih (fun x hx => hl x (List.mem_cons_of_mem s hx))

/-- Witness for C7 at the concrete segment list `["..", "..", ".."]`. -/
theorem c7_witness :
    _norm "/" "../../.." = "/" ∧
    List.foldl normStep [] ["..", "..", ".."] = [] :=
  ⟨c7_dotdot_above_root.1, c7_dotdot_above_root.2 ["..", "..", ".."] (by decide)⟩

/-- Claim C2: failure is non-mutating.  A failing `_run_simple` call leaves
the directory map, file map and cwd exactly as before (this covers every
single command and a failing final redirection write); at the `run` level a
failing line leaves the state unchanged, except that when the first stage of
a pipeline succeeded its side effects persist (exactly stage 1's state). -/
theorem c2_failure_atomicity :
    (∀ fs line piped, (runSimple fs line piped).ok = false →
      (runSimple fs line piped).fs = fs) ∧
    (∀ fs line, (run fs line).ok = false →
      (run fs line).fs = fs ∨
      ((runSimple fs (pyStrip (split1 (pyStrip line) "|").1) none).ok = true ∧
       (run fs line).fs =
         (runSimple fs (pyStrip (split1 (pyStrip line) "|").1) none).fs)) := by
  refine ⟨runSimple_fail, ?_⟩
  intro fs line h
  simp only [run] at h ⊢
  by_cases he : pyStrip line = ""
  · rw [if_pos he] at h ⊢
    left; rfl
  rw [if_neg he] at h ⊢
  by_cases hp : strContains (pyStrip line) "|" = true
  · rw [if_pos hp] at h ⊢
    by_cases h1 : (runSimple fs (pyStrip (split1 (pyStrip line) "|").1) none).ok = false
    · rw [if_pos h1] at h ⊢
      left
      exact runSimple_fail _ _ _ h1
    · rw [if_neg h1] at h ⊢
      right
      refine ⟨by simpa using h1, ?_⟩
      exact runSimple_fail _ _ _ h
  · rw [if_neg hp] at h ⊢
    left
    exact runSimple_fail _ _ _ h

/-- Witness for C2: `rm /etc` fails (it names a directory) and the state is
untouched. -/
theorem c2_witness :
    (runSimple initFS "rm /etc" none).ok = false ∧
    (runSimple initFS "rm /etc" none).fs = initFS :=
  ⟨by decide, c2_failure_atomicity.1 initFS "rm /etc" none (by decide)⟩

/-- Claim C1 (refuted — bug in the code): `touch` on a path that denotes an
existing Directory, and redirecting output to such a path, DO create a File
there.  After `touch /home` (and likewise after `echo hi > /home`) the
canonical path `/home` is simultaneously a key of the directory map and of
the file map, violating the stated invariant. -/
theorem c1_both_maps_violation :
    (touch initFS "/home").ok = true ∧
    dmem (touch initFS "/home").fs.dirs "/home" = true ∧
    dmem (touch initFS "/home").fs.files "/home" = true ∧
    (run initFS "echo hi > /home").ok = true ∧
    dmem (run initFS "echo hi > /home").fs.dirs "/home" = true ∧
    dmem (run initFS "echo hi > /home").fs.files "/home" = true := by
  decide

/-- Claim C10: when source and destination arguments resolve to the same
canonical path `p` of an existing File (whose parent directory exists, per
data-model invariant 2), `mv` returns success but leaves no File at `p`:
the file and its content are deleted. -/
theorem c10_mv_self_deletes (fs : FS) (src dst c : String)
    (hd : _norm fs.cwd dst = _norm fs.cwd src)
    (hs : dget fs.files (_norm fs.cwd src) = some c)
    (hp : dmem fs.dirs (parentOf (_norm fs.cwd src)) = true) :
    (mv fs src dst).ok = true ∧
    dget (mv fs src dst).fs.files (_norm fs.cwd src) = none := by
  simp only [mv, hd, hs]
  rw [if_neg (by simp [hp])]
  exact ⟨rfl, dget_derase_self _ _⟩

/-- Witness for C10: moving the seed file onto itself (spelled two ways)
succeeds and deletes it. -/
theorem c10_witness :
    (mv initFS "notes/readme.txt" "./notes/readme.txt").ok = true ∧
    dget (mv initFS "notes/readme.txt" "./notes/readme.txt").fs.files
      "/home/cannon/notes/readme.txt" = none :=
  c10_mv_self_deletes initFS "notes/readme.txt" "./notes/readme.txt"
    "Welcome to LPIC Essentials Topic 1.3\n" (by decide) (by decide) (by decide)

/-- Counterexample to claim C5 as stated: with source and destination both
resolving to the same existing file, `mv` succeeds yet afterwards the
destination does NOT hold the source's prior content — no file remains. -/
theorem c5_counterexample :
    (mv initFS "notes/readme.txt" "notes/readme.txt").ok = true ∧
    dget (mv initFS "notes/readme.txt" "notes/readme.txt").fs.files
      "/home/cannon/notes/readme.txt" = none := by
  decide

/-- Claim C5 (amended): provided the resolved source and destination paths
differ, `mv` on an existing source File whose destination parent Directory
exists makes the destination hold the source's prior content, removes the
source, and touches nothing else; `mv` on a nonexistent source fails with
`NoSuchFile` and leaves the state entirely unchanged. -/
theorem c5_mv_moves (fs : FS) (src dst content : String) :
    (dget fs.files (_norm fs.cwd src) = some content →
     dmem fs.dirs (parentOf (_norm fs.cwd dst)) = true →
     _norm fs.cwd src ≠ _norm fs.cwd dst →
     (mv fs src dst).ok = true ∧
     dget (mv fs src dst).fs.files (_norm fs.cwd dst) = some content ∧
     dget (mv fs src dst).fs.files (_norm fs.cwd src) = none ∧
     (mv fs src dst).fs.dirs = fs.dirs ∧ (mv fs src dst).fs.cwd = fs.cwd) ∧
    (dget fs.files (_norm fs.cwd src) = none →
     mv fs src dst =
       ⟨false, "mv: cannot stat \x27" ++ src ++ "\x27: No such file", fs⟩) := by
  constructor
  · intro hs hp hne
    simp only [mv, hs]
    rw [if_neg (by simp [hp])]
    refine ⟨rfl, ?_, ?_, rfl, rfl⟩
    · rw [dget_derase_ne _ _ _ (Ne.symm hne), dget_dinsert_self]
    · rw [dget_derase_self]
  · intro hs
    simp only [mv, hs]

/-- Witness for C5 (amended) at a concrete move inside the seed tree. -/
theorem c5_witness :
    (mv initFS "notes/readme.txt" "labs/copy.txt").ok = true ∧
    dget (mv initFS "notes/readme.txt" "labs/copy.txt").fs.files
      "/home/cannon/labs/copy.txt" = some "Welcome to LPIC Essentials Topic 1.3\n" ∧
    dget (mv initFS "notes/readme.txt" "labs/copy.txt").fs.files
      "/home/cannon/notes/readme.txt" = none ∧
    (mv initFS "notes/readme.txt" "labs/copy.txt").fs.dirs = initFS.dirs ∧
    (mv initFS "notes/readme.txt" "labs/copy.txt").fs.cwd = initFS.cwd :=
  (c5_mv_moves initFS "notes/readme.txt" "labs/copy.txt"
    "Welcome to LPIC Essentials Topic 1.3\n").1 (by decide) (by decide) (by decide)

/-- Claim C4: `mkdir` fails with the File-exists message when the resolved
path is already a Directory or a File, fails with the No-such-file-or-directory
message when the parent is not an existing Directory, and otherwise creates an
empty Directory registered as a child of its parent; concretely,
`mkdir "/a/b"` fails while `/a` is absent, succeeds once `/a` exists, and
repeating it fails with the File-exists message. -/
theorem c4_mkdir_contract (fs : FS) (name : String) :
    ((dmem fs.dirs (_norm fs.cwd name) = true ∨
      dmem fs.files (_norm fs.cwd name) = true) →
      mkdir fs name = ⟨false, "mkdir: cannot create directory \x27" ++ name ++
        "\x27: File exists", fs⟩) ∧
    (dmem fs.dirs (_norm fs.cwd name) = false →
     dmem fs.files (_norm fs.cwd name) = false →
     dmem fs.dirs (parentOf (_norm fs.cwd name)) = false →
      mkdir fs name = ⟨false, "mkdir: cannot create directory \x27" ++ name ++
        "\x27: No such file or directory", fs⟩) ∧
    (∀ kids, dmem fs.dirs (_norm fs.cwd name) = false →
     dmem fs.files (_norm fs.cwd name) = false →
     dget fs.dirs (parentOf (_norm fs.cwd name)) = some kids →
      (mkdir fs name).ok = true ∧
      dget (mkdir fs name).fs.dirs (_norm fs.cwd name) = some [] ∧
      dget (mkdir fs name).fs.dirs (parentOf (_norm fs.cwd name)) =
        some (kids ++ [(splitSlash (_norm fs.cwd name)).getLastD ""]) ∧
      (mkdir fs name).fs.files = fs.files ∧ (mkdir fs name).fs.cwd = fs.cwd) ∧
    (mkdir initFS "/a/b" = ⟨false,
      "mkdir: cannot create directory \x27/a/b\x27: No such file or directory",
      initFS⟩ ∧
     (mkdir (mkdir initFS "/a").fs "/a/b").ok = true ∧
     mkdir (mkdir (mkdir initFS "/a").fs "/a/b").fs "/a/b" = ⟨false,
      "mkdir: cannot create directory \x27/a/b\x27: File exists",
      (mkdir (mkdir initFS "/a").fs "/a/b").fs⟩) := by
  refine ⟨?_, ?_, ?_, by decide⟩
  · intro h
    simp only [mkdir]
    rw [if_pos h]
  · intro h1 h2 h3
    simp only [mkdir]
    rw [if_neg (by simp [h1, h2]), if_pos h3]
  · intro kids h1 h2 h3
    have hne : _norm fs.cwd name ≠ parentOf (_norm fs.cwd name) := by
      intro he
      rw [he] at h1
      simp [dmem, h3] at h1
    simp only [mkdir]
    rw [if_neg (by simp [h1, h2]), if_neg (by simp [dmem, h3])]
    refine ⟨rfl, ?_, ?_, rfl, rfl⟩
    · rw [dget_dinsert_self]
    · rw [dget_dinsert_ne _ _ _ _ (Ne.symm hne), dget_dmodify_self, h3]
      rfl

/-- Witness for C4: `mkdir /home` on the seed tree hits the already-exists
branch. -/
theorem c4_witness :
    mkdir initFS "/home" = ⟨false,
      "mkdir: cannot create directory \x27/home\x27: File exists", initFS⟩ :=
  (c4_mkdir_contract initFS "/home").1 (by decide)

/-- Claim C3: pipe protocol.  When the stripped line contains a pipe, stage 1
runs with no virtual input (`none`); if it fails, the pipeline returns that
failure (stage 2 never runs); if it succeeds, its full textual output is
handed to stage 2 as virtual input.  Moreover `wc` with piped input ignores a
file argument: on `wc -w /x` with piped text `t` the result depends only on
`t`, for every filesystem state whatsoever. -/
theorem c3_pipe_protocol :
    (∀ fs line l r, strContains (pyStrip line) "|" = true →
      split1 (pyStrip line) "|" = (l, r) →
      (((runSimple fs (pyStrip l) none).ok = false →
        run fs line = ⟨false, (runSimple fs (pyStrip l) none).out,
          (runSimple fs (pyStrip l) none).fs⟩) ∧
       ((runSimple fs (pyStrip l) none).ok = true →
        run fs line = runSimple (runSimple fs (pyStrip l) none).fs (pyStrip r)
          (some (runSimple fs (pyStrip l) none).out)))) ∧
    (∀ fs t, runSimple fs "wc -w /x" (some t) =
      ⟨true, wc_count t "-w" ++ "\n", fs⟩) := by
  constructor
  · intro fs line l r hc hsp
    have he : ¬ pyStrip line = "" := by
      intro hh
      rw [hh] at hc
      exact absurd hc (by decide)
    constructor
    · intro h1
      simp only [run, hsp]
      rw [if_neg he, if_pos hc, if_pos h1]
    · intro h1
      simp only [run, hsp]
      rw [if_neg he, if_pos hc, if_neg (by simp [h1])]
  · intro fs t
    rfl

/-- Witness for C3 at a concrete failing first stage: the unknown command
`frob` fails, so the pipeline returns its failure. -/
theorem c3_witness :
    run initFS "frob | wc -w" = ⟨false, (runSimple initFS "frob" none).out,
      (runSimple initFS "frob" none).fs⟩ :=
  ((c3_pipe_protocol.1 initFS "frob | wc -w" "frob " " wc -w"
    (by decide) (by decide)).1 (by decide))

/-- A state whose only difference from the seed tree is the directory
`/home/u` holding the file `f.txt` with content `"a b c"`. -/
def fsU : FS :=
  { initFS with
    dirs := dinsert (dmodify initFS.dirs "/home" (fun kids => kids ++ ["u"]))
      "/home/u" [],
    files := dinsert initFS.files "/home/u/f.txt" "a b c" }

/-- Counterexample to claim C8 as stated: on a state where `/home/u/f.txt`
holds `"a b c"`, the pipeline `cat /home/u/f.txt | wc -w` succeeds but its
output is `"3\n"`, not exactly the string `"3"`. -/
theorem c8_counterexample :
    (run fsU "cat /home/u/f.txt | wc -w").ok = true ∧
    (run fsU "cat /home/u/f.txt | wc -w").out = "3\n" ∧
    (run fsU "cat /home/u/f.txt | wc -w").out ≠ "3" := by
  decide

/-- Claim C8 (amended): for every state in which the resolved file
`/home/u/f.txt` exists with content `"a b c"`, the pipeline
`cat /home/u/f.txt | wc -w` succeeds and its output is exactly `"3\n"` —
the word count `3` followed by the newline `wc` appends — leaving the state
unchanged. -/
theorem c8_pipeline_output (fs : FS)
    (h : dget fs.files "/home/u/f.txt" = some "a b c") :
    run fs "cat /home/u/f.txt | wc -w" = ⟨true, "3\n", fs⟩ := by
  have hnorm : _norm fs.cwd "/home/u/f.txt" = "/home/u/f.txt" := rfl
  have hcat : cat fs "/home/u/f.txt" = (true, "a b c") := by
    simp only [cat, hnorm, h]
  have hs1 : runSimple fs "cat /home/u/f.txt" none = ⟨true, "a b c\n", fs⟩ := by
    have hred : runSimple fs "cat /home/u/f.txt" none =
        finalize fs (cat fs "/home/u/f.txt").1
          ((cat fs "/home/u/f.txt").2 ++
            (if strEndsWith (cat fs "/home/u/f.txt").2 "\n" = true ∨
              (cat fs "/home/u/f.txt").1 = false then "" else "\n"))
          none false := rfl
    rw [hred, hcat]
    rfl
  have hred2 : run fs "cat /home/u/f.txt | wc -w" =
      (if (runSimple fs "cat /home/u/f.txt" none).ok = false then
        (⟨false, (runSimple fs "cat /home/u/f.txt" none).out,
          (runSimple fs "cat /home/u/f.txt" none).fs⟩ : Res)
      else runSimple (runSimple fs "cat /home/u/f.txt" none).fs "wc -w"
        (some (runSimple fs "cat /home/u/f.txt" none).out)) := rfl
  rw [hred2, hs1]
  rw [if_neg (by simp)]
  show runSimple fs "wc -w" (some "a b c\n") = (⟨true, "3\n", fs⟩ : Res)
  have hred3 : runSimple fs "wc -w" (some "a b c\n") =
      finalize fs true (wc_count "a b c\n" "-w" ++ "\n") none false := rfl
  rw [hred3]
  rfl

/-- Witness for C8 (amended) at the concrete state `fsU`. -/
theorem c8_witness :
    run fsU "cat /home/u/f.txt | wc -w" = ⟨true, "3\n", fsU⟩ :=
  c8_pipeline_output fsU (by decide)

/-- Counterexample to claim C9 as stated: the seed state holds the File
`/home/cannon/notes/readme.txt`, yet `wc` with only that file argument and no
flag fails instead of succeeding with a line count. -/
theorem c9_counterexample :
    run initFS "wc /home/cannon/notes/readme.txt" =
      ⟨false, "wc: expected piped input or file\n", initFS⟩ := by
  decide

/-- Claim C9 (amended): with no piped input `wc` reads a named file only from
its SECOND argument, so `wc <path>` with a single file argument and no flag
fails with the expected-piped-input-or-file message in every state; the
named-file form needs a flag (`wc -w <path>` succeeds on an existing file),
and the lines default applies to piped input. -/
theorem c9_wc_contract :
    (∀ fs, runSimple fs "wc /home/cannon/notes/readme.txt" none =
      ⟨false, "wc: expected piped input or file\n", fs⟩) ∧
    (∀ fs c, dget fs.files "/home/cannon/notes/readme.txt" = some c →
      runSimple fs "wc -w /home/cannon/notes/readme.txt" none =
        ⟨true, wc_count c "-w" ++ "\n", fs⟩) ∧
    (∀ fs t, runSimple fs "wc" (some t) =
      ⟨true, wc_count t "" ++ "\n", fs⟩) := by
  refine ⟨fun fs => rfl, ?_, fun fs t => rfl⟩
  intro fs c h
  have hnorm : _norm fs.cwd "/home/cannon/notes/readme.txt" =
      "/home/cannon/notes/readme.txt" := rfl
  have hcat : cat fs "/home/cannon/notes/readme.txt" = (true, c) := by
    simp only [cat, hnorm, h]
  have hred : runSimple fs "wc -w /home/cannon/notes/readme.txt" none =
      (if (cat fs "/home/cannon/notes/readme.txt").1 = false then
        (⟨false, (cat fs "/home/cannon/notes/readme.txt").2 ++
          (if strEndsWith (cat fs "/home/cannon/notes/readme.txt").2 "\n" = true
           then "" else "\n"), fs⟩ : Res)
      else finalize fs true
        (wc_count (cat fs "/home/cannon/notes/readme.txt").2 "-w" ++ "\n")
        none false) := rfl
  rw [hred, hcat]
  rw [if_neg (by simp)]
  rfl

/-- Witness for C9 (amended): `wc -w` with the seed file as its second
argument succeeds. -/
theorem c9_witness :
    runSimple initFS "wc -w /home/cannon/notes/readme.txt" none =
      ⟨true, wc_count "Welcome to LPIC Essentials Topic 1.3\n" "-w" ++ "\n",
        initFS⟩ :=
  c9_wc_contract.2.1 initFS "Welcome to LPIC Essentials Topic 1.3\n" (by decide)

end Sim
